import Mathlib

/-!
Shallow embedding of the browser-side dashboard logic of `static/js/main.js`
from the docker_manager repository: the connector-card reconciliation for
`known_connectors`, the config-editor lock/unlock/save state machine, the
live chart buffers, the terminal transcript, the system-stats handler, the
status badges, and the `calculateAverage` helper.
-/

set_option autoImplicit false

namespace DockerManager

/-- JS truthiness of an optional string followed by `||` with a default:
`x || d` yields `d` when `x` is `undefined`/`null` or the empty string. -/
def jsOrElse (x : Option String) (d : String) : String :=
  match x with
  | none => d
  | some s => if s = "" then d else s

/-! ## Config editor UI state (`openEditor` / `unlockConfig` / `checkPassword` / `saveConfig`) -/

/-- The DOM pieces touched by the config-editor state machine: the textarea
`editor-modal` (read-only flag, border color), the message span
`editor-msg-modal` (text and class), the visibility of `btn-lock-modal` and
`btn-save-modal` (`d-none` class present = hidden), and the password modal
with its input `unlock-password` and error span `password-error`. -/
structure EditorUI where
  editorReadOnly : Bool
  editorBorderColor : String
  msgText : String
  msgClass : String
  btnLockHidden : Bool
  btnSaveHidden : Bool
  passwordModalShown : Bool
  passwordValue : String
  passwordError : String
deriving DecidableEq, Repr

/-- JavaScript `String.prototype.toLowerCase()`: lower-case every character
(the badge texts involved are plain ASCII). -/
def jsToLower (s : String) : String :=
  String.mk (s.data.map Char.toLower)

/-- Whether `statusBadge && statusBadge.innerText.toLowerCase() === 'running'`
holds for the optional badge element, as checked by `unlockConfig`. -/
def badgeReadsRunning (badge : Option String) : Bool :=
  match badge with
  | some s => jsToLower s == "running"
  | none => false

/-- `unlockConfig()` from main.js: if the target's status badge exists and its
text lower-cases to `running`, alert and return (the boolean result records
that the alert fired); otherwise clear the password field and error and show
the password modal. `badge` is the `innerText` of
`status-connector_<currentEditingName>` when that element exists. -/
def unlockConfig (badge : Option String) (st : EditorUI) : EditorUI × Bool :=
  if badgeReadsRunning badge then
    (st, true)
  else
    ({ st with passwordValue := "", passwordError := "", passwordModalShown := true }, false)

/-- `checkPassword()` from main.js: compare the entered password against the
static credential; on success hide the modal, make the editor writable, color
its border and swap the lock/save buttons; otherwise show
`Incorrect password.` in the error span. -/
def checkPassword (st : EditorUI) : EditorUI :=
  if st.passwordValue = "P@ssw0rd" then
    { st with
      passwordModalShown := false
      editorReadOnly := false
      editorBorderColor := "#ffc107"
      btnLockHidden := true
      btnSaveHidden := false }
  else
    { st with passwordError := "Incorrect password." }

/-- The JSON body of the `POST /api/connector/<name>/config` response as read
by `saveConfig`. -/
structure SaveResponse where
  status : String
  backup : String
  error : Option String
deriving DecidableEq, Repr

/-- The response-handling continuation of `saveConfig()` from main.js: on
`status === 'success'` report the backup name and re-lock the editor
(read-only, default border, lock button shown, save button hidden); on any
other status report `data.error || 'Save failed'` and leave the rest of the
UI untouched. -/
def saveConfigResponse (resp : SaveResponse) (st : EditorUI) : EditorUI :=
  if resp.status = "success" then
    { st with
      msgClass := "text-success small ms-2"
      msgText := "Saved! Backup: " ++ resp.backup
      editorReadOnly := true
      editorBorderColor := ""
      btnLockHidden := false
      btnSaveHidden := true }
  else
    { st with
      msgClass := "text-danger small ms-2"
      msgText := jsOrElse resp.error "Save failed" }

/-- `saveConfig()` from main.js: first set the message to `Saving...`, then
handle the server response with `saveConfigResponse`. -/
def saveConfig (resp : SaveResponse) (st : EditorUI) : EditorUI :=
  saveConfigResponse resp { st with msgText := "Saving...", msgClass := "text-warning small ms-2" }

/-! ## Terminal transcript (`logToTerminal` / `command_output`) -/

/-- One `command_output` message: `{line: string}`. -/
structure CommandOutputEvent where
  line : String
deriving DecidableEq, Repr

/-- `logToTerminal(text)` from main.js: append one new `div` holding `text`
at the end of the terminal element. The transcript is the list of line texts
in document order. -/
def logToTerminal (terminal : List String) (text : String) : List String :=
  terminal ++ [text]

/-- The `socket.on('command_output')` handler applied to a whole delivery
sequence of events, in order: each event logs its `line` field. -/
def commandOutputRun (terminal : List String) (events : List CommandOutputEvent) : List String :=
  events.foldl (fun t e => logToTerminal t e.line) terminal

/-! ## Live charts (`updateChart`) -/

/-- A Chart.js chart as used by main.js: `labels` and one data list per
dataset. Point values are numbers; they are modelled as integers since only
which points are stored matters here. -/
structure ChartState where
  labels : List String
  datasets : List (List Int)
deriving DecidableEq, Repr

/-- Replace the dataset at index `i` by `f` applied to it, leaving the other
datasets alone (the effect of `chart.data.datasets[i].data.push(v)`). -/
def modifyDataset (i : Nat) (f : List Int → List Int) : List (List Int) → List (List Int)
  | [] => []
  | d :: ds =>
    match i with
    | 0 => f d :: ds
    | n + 1 => d :: modifyDataset n f ds

/-- `updateChart(chart, val1, val2)` from main.js: if more than 20 labels are
stored, shift the oldest label and the oldest point of every dataset; then
push the current time label and `val1` onto dataset 0, and push `val2` onto
dataset 1 when a second dataset exists and `val2` is not null. `timeLabel`
stands for the `HH:MM:SS` string built from `new Date()`. -/
def updateChart (timeLabel : String) (c : ChartState) (val1 : Int) (val2 : Option Int) : ChartState :=
  let c' :=
    if c.labels.length > 20 then
      { labels := c.labels.tail, datasets := c.datasets.map List.tail }
    else c
  let c'' : ChartState :=
    { labels := c'.labels ++ [timeLabel]
      datasets := modifyDataset 0 (· ++ [val1]) c'.datasets }
  if c''.datasets.length > 1 then
    match val2 with
    | some v => { c'' with datasets := modifyDataset 1 (· ++ [v]) c''.datasets }
    | none => c''
  else c''

/-- A single-dataset chart as created by `createHistChart`/`createMqChart`
with one color: empty labels, one empty dataset. -/
def emptyChart1 : ChartState := { labels := [], datasets := [[]] }

/-- Iterate `updateChart` `n` times with a fixed label and value, starting
from `c` (a sequence of ticks arriving at a live chart). -/
def updateChartIter : Nat → ChartState → ChartState
  | 0, c => c
  | n + 1, c => updateChartIter n (updateChart "00:00:00" c 0 none)

/-! ## System stats handler (`socket.on('system_stats')`) -/

/-- The `rabbitmq` block of a `system_stats` message. Counts and rates are
modelled as integers (their on-screen decimal formatting is presentation). -/
structure MqBlock where
  status : String
  messages_ready : Int
  messages_total : Int
  publish_rate : Int
  deliver_rate : Int
  error : Option String
deriving DecidableEq, Repr

/-- One `system_stats` message (flattened MetricSnapshot), numeric fields
modelled as integers. -/
structure StatsData where
  cpu : Int
  ram : Int
  ram_used : Int
  ram_total : Int
  disk : Int
  disk_used : Int
  disk_total : Int
  net_in : Int
  net_out : Int
  rabbitmq : Option MqBlock
deriving DecidableEq, Repr

/-- The dashboard DOM state touched by the `system_stats` handler: the
CPU/RAM/disk/net readouts, the queue-broker indicator `mq-status` (class and
text), the four queue text fields, and the three queue charts. Numeric
readouts store the value written (formatting is presentation). -/
structure Dashboard where
  cpuVal : Int
  ramVal : Int
  diskVal : Int
  netIn : Int
  netOut : Int
  mqStatusClass : String
  mqStatusText : String
  mqQueued : Int
  mqTotal : Int
  mqRateIn : Int
  mqRateOut : Int
  chartQueued : ChartState
  chartTotal : ChartState
  chartRate : ChartState
deriving DecidableEq, Repr

/-- The `socket.on('system_stats')` handler from main.js: always update the
CPU/RAM/disk/net readouts; when a `rabbitmq` block is present and its status
is `online`, mark the broker Online, write the four queue fields and push one
point onto each queue chart; on any other status mark it
`Offline (<error or Err>)` and touch nothing else. -/
def systemStatsHandler (timeLabel : String) (data : StatsData) (db : Dashboard) : Dashboard :=
  let db1 :=
    { db with
      cpuVal := data.cpu
      ramVal := data.ram
      diskVal := data.disk
      netIn := data.net_in
      netOut := data.net_out }
  match data.rabbitmq with
  | none => db1
  | some mq =>
    if mq.status = "online" then
      { db1 with
        mqStatusClass := "badge bg-success"
        mqStatusText := "Online"
        mqQueued := mq.messages_ready
        mqTotal := mq.messages_total
        mqRateIn := mq.publish_rate
        mqRateOut := mq.deliver_rate
        chartQueued := updateChart timeLabel db1.chartQueued mq.messages_ready none
        chartTotal := updateChart timeLabel db1.chartTotal mq.messages_total none
        chartRate := updateChart timeLabel db1.chartRate mq.publish_rate (some mq.deliver_rate) }
    else
      { db1 with
        mqStatusClass := "badge bg-danger"
        mqStatusText := "Offline (" ++ jsOrElse mq.error "Err" ++ ")" }

/-! ## Status badges (`socket.on('status_update')`) -/

/-- A status badge element: its class string and displayed text. -/
structure BadgeEl where
  className : String
  innerText : String
deriving DecidableEq, Repr

/-- The badge written for a running stack. -/
def runningBadge : BadgeEl := { className := "badge bg-success ms-2", innerText := "Running" }

/-- The badge written for any non-running status value. -/
def stoppedBadge : BadgeEl := { className := "badge bg-danger ms-2", innerText := "Stopped" }

/-- Write `b` into the element `status-<key>` when it exists
(`getElementById` returned non-null); a missing element stays missing. -/
def setBadge (dom : String → Option BadgeEl) (key : String) (b : BadgeEl) :
    String → Option BadgeEl :=
  fun k => if k = key then (dom k).map (fun _ => b) else dom k

/-- The `socket.on('status_update')` handler from main.js: for each
`[key, status]` entry, if the element `status-<key>` exists, set it to the
Running badge exactly when `status === 'running'` and to the Stopped badge
otherwise. -/
def statusUpdateHandler (entries : List (String × String)) (dom : String → Option BadgeEl) :
    String → Option BadgeEl :=
  entries.foldl
    (fun d e => setBadge d e.1 (if e.2 = "running" then runningBadge else stoppedBadge))
    dom

/-! ## Connector-card reconciliation (`socket.on('known_connectors')`) -/

/-- One entry of a `known_connectors` message: `{name, has_config}`. -/
structure ConnItem where
  name : String
  has_config : Bool
deriving DecidableEq, Repr

/-- A rendered connector card in `connectors-list`: its `data-name` attribute
and its `data-valid` attribute (written as `true` exactly when the card was
built with `has_config`). The container is the list of cards in document
order. -/
structure Card where
  name : String
  valid : Bool
deriving DecidableEq, Repr

/-- The card produced by `createConnectorHtml(item.name, item.has_config, uid)`. -/
def cardOf (item : ConnItem) : Card :=
  { name := item.name, valid := item.has_config }

/-- The update branch of the handler: `container.querySelector` finds the
first card whose `data-name` is `n`; when its `data-valid` differs from `v`
its `outerHTML` is replaced by a fresh card (same document position),
otherwise it is left alone. No card is touched when no name matches. -/
def updateFirst (n : String) (v : Bool) : List Card → List Card
  | [] => []
  | c :: cs =>
    if c.name = n then
      if c.valid ≠ v then { name := n, valid := v } :: cs else c :: cs
    else c :: updateFirst n v cs

/-- Step 2 of the handler for one list item: a name not among the
pre-existing names (`existingNames`, captured before the loop) appends a
fresh card at the end of the container; a pre-existing name goes through the
replace-if-validity-changed branch. -/
def processItem (orig : List String) (cards : List Card) (item : ConnItem) : List Card :=
  if item.name ∈ orig then updateFirst item.name item.has_config cards
  else cards ++ [cardOf item]

/-- The `socket.on('known_connectors')` handler from main.js, acting on the
card list of `connectors-list`: (1) record the existing `data-name`s, (2) per
list item add or conditionally replace a card, (3) remove every card that
already existed at the start of the handler and whose name is absent from
the list (freshly appended and in-place-replaced cards all carry names from
the list, so the removal pass deletes exactly the stale originals). -/
def knownConnectorsHandler (cards : List Card) (list : List ConnItem) : List Card :=
  let origNames := cards.map (·.name)
  let afterAdd := list.foldl (processItem origNames) cards
  let newNames := list.map (·.name)
  afterAdd.filter (fun c => !origNames.contains c.name || newNames.contains c.name)

/-! ## calculateAverage -/

/-- The value returned by `calculateAverage`: JavaScript returns either the
number `0` or the string produced by `toFixed(1)`. -/
inductive AvgResult where
  | num (n : ℚ)
  | str (s : String)
deriving DecidableEq, Repr

/-- `Number.prototype.toFixed(1)` on a rational: round `10·q` half towards
positive infinity, then print with one decimal digit. -/
def toFixed1 (q : ℚ) : String :=
  let n : ℤ := ⌊q * 10 + 1 / 2⌋
  let sign := if n < 0 then "-" else ""
  sign ++ toString (n.natAbs / 10) ++ "." ++ toString (n.natAbs % 10)

/-- `calculateAverage(data)` from main.js: `!data || data.length === 0`
returns the number 0; otherwise reduce the array with `+` from 0 and return
the mean formatted by `toFixed(1)`. `none` stands for `null`/`undefined`. -/
def calculateAverage (data : Option (List ℚ)) : AvgResult :=
  match data with
  | none => AvgResult.num 0
  | some l =>
    if l.length = 0 then AvgResult.num 0
    else
      let sum := l.foldl (· + ·) 0
      AvgResult.str (toFixed1 (sum / l.length))

/-! ## Theorems for the editor state machine (C2, C3, C4) -/

/-- C2: for every `saveConfig` call made from the unlocked state, a response
with status `success` returns the session to the locked state — editor
read-only, lock button shown, save button hidden — and displays the reported
backup name; any other status leaves the editor writable and the button
state untouched and displays the response's error string instead. -/
theorem saveConfig_relocks_on_success (resp : SaveResponse) (st : EditorUI)
    (hunlocked : st.editorReadOnly = false) :
    (resp.status = "success" →
      (saveConfig resp st).editorReadOnly = true ∧
      (saveConfig resp st).btnLockHidden = false ∧
      (saveConfig resp st).btnSaveHidden = true ∧
      (saveConfig resp st).msgText = "Saved! Backup: " ++ resp.backup) ∧
    (resp.status ≠ "success" →
      (saveConfig resp st).editorReadOnly = false ∧
      (saveConfig resp st).btnLockHidden = st.btnLockHidden ∧
      (saveConfig resp st).btnSaveHidden = st.btnSaveHidden ∧
      (saveConfig resp st).passwordModalShown = st.passwordModalShown ∧
      ∀ s, resp.error = some s → s ≠ "" → (saveConfig resp st).msgText = s) := by
  constructor
  · intro h
    simp [saveConfig, saveConfigResponse, h]
  · intro h
    refine ⟨?_, ?_, ?_, ?_, ?_⟩ <;>
      simp [saveConfig, saveConfigResponse, h, hunlocked]
    intro s hs hne
    simp [jsOrElse, hs, hne]

/-- Witness for C2 at a concrete success response and a concrete failure
response, from a concrete unlocked state. -/
theorem saveConfig_relocks_on_success_witness :
    (saveConfig { status := "success", backup := "b.bak", error := none }
        { editorReadOnly := false, editorBorderColor := "#ffc107", msgText := "",
          msgClass := "", btnLockHidden := true, btnSaveHidden := false,
          passwordModalShown := false, passwordValue := "", passwordError := "" }).editorReadOnly
      = true ∧
    (saveConfig { status := "error", backup := "", error := some "denied" }
        { editorReadOnly := false, editorBorderColor := "#ffc107", msgText := "",
          msgClass := "", btnLockHidden := true, btnSaveHidden := false,
          passwordModalShown := false, passwordValue := "", passwordError := "" }).msgText
      = "denied" :=
  ⟨((saveConfig_relocks_on_success
      { status := "success", backup := "b.bak", error := none }
      { editorReadOnly := false, editorBorderColor := "#ffc107", msgText := "",
        msgClass := "", btnLockHidden := true, btnSaveHidden := false,
        passwordModalShown := false, passwordValue := "", passwordError := "" }
      rfl).1 rfl).1,
   ((saveConfig_relocks_on_success
      { status := "error", backup := "", error := some "denied" }
      { editorReadOnly := false, editorBorderColor := "#ffc107", msgText := "",
        msgClass := "", btnLockHidden := true, btnSaveHidden := false,
        passwordModalShown := false, passwordValue := "", passwordError := "" }
      rfl).2 (by decide)).2.2.2.2 "denied" rfl (by decide)⟩

/-- C3: starting from the locked prompt state, `checkPassword` unlocks the
editor — modal hidden, editor writable, save button shown — exactly when the
entered password equals the shared static credential; any other input only
sets the error message `Incorrect password.` and changes nothing else. -/
theorem checkPassword_unlocks_iff (st : EditorUI)
    (hRo : st.editorReadOnly = true) (hModal : st.passwordModalShown = true)
    (hSave : st.btnSaveHidden = true) :
    ((checkPassword st).editorReadOnly = false ∧
      (checkPassword st).passwordModalShown = false ∧
      (checkPassword st).btnSaveHidden = false
        ↔ st.passwordValue = "P@ssw0rd") ∧
    (st.passwordValue ≠ "P@ssw0rd" →
      checkPassword st = { st with passwordError := "Incorrect password." }) := by
  by_cases h : st.passwordValue = "P@ssw0rd" <;>
    simp [checkPassword, h, hRo, hModal, hSave]

/-- Witness for C3: the concrete credential unlocks, a wrong guess only sets
the error message. -/
theorem checkPassword_unlocks_iff_witness :
    (checkPassword
        { editorReadOnly := true, editorBorderColor := "", msgText := "", msgClass := "",
          btnLockHidden := false, btnSaveHidden := true, passwordModalShown := true,
          passwordValue := "P@ssw0rd", passwordError := "" }).editorReadOnly = false ∧
    (checkPassword
        { editorReadOnly := true, editorBorderColor := "", msgText := "", msgClass := "",
          btnLockHidden := false, btnSaveHidden := true, passwordModalShown := true,
          passwordValue := "guess", passwordError := "" }).passwordError
      = "Incorrect password." :=
  ⟨(((checkPassword_unlocks_iff
      { editorReadOnly := true, editorBorderColor := "", msgText := "", msgClass := "",
        btnLockHidden := false, btnSaveHidden := true, passwordModalShown := true,
        passwordValue := "P@ssw0rd", passwordError := "" } rfl rfl rfl).1).mpr rfl).1,
   by
    rw [(checkPassword_unlocks_iff
      { editorReadOnly := true, editorBorderColor := "", msgText := "", msgClass := "",
        btnLockHidden := false, btnSaveHidden := true, passwordModalShown := true,
        passwordValue := "guess", passwordError := "" } rfl rfl rfl).2 (by decide)]⟩

/-- C4: with the password modal closed and the badge holding one of the
texts this app ever writes (`Running`, `Stopped`, `Checking...`, or no badge
element), `unlockConfig` opens the credential prompt exactly when the badge
does not read `Running`; when it reads `Running` the call alerts and leaves
the state unchanged, so the editor cannot progress toward unlocking. -/
theorem unlockConfig_blocks_running (badge : Option String) (st : EditorUI)
    (hModal : st.passwordModalShown = false)
    (hbadge : badge = none ∨ badge = some "Running" ∨ badge = some "Stopped" ∨
      badge = some "Checking...") :
    ((unlockConfig badge st).1.passwordModalShown = true ↔ badge ≠ some "Running") ∧
    (badge = some "Running" → unlockConfig badge st = (st, true)) ∧
    (badge ≠ some "Running" →
      unlockConfig badge st =
        ({ st with passwordValue := "", passwordError := "", passwordModalShown := true },
          false)) := by
  have hrun : jsToLower "Running" = "running" := by decide
  have hstop : ¬jsToLower "Stopped" = "running" := by decide
  have hchk : ¬jsToLower "Checking..." = "running" := by decide
  rcases hbadge with h | h | h | h <;> subst h <;>
    simp [unlockConfig, badgeReadsRunning, hrun, hstop, hchk, hModal]

/-- Witness for C4 at a running badge and a stopped badge, from a concrete
state with the modal closed. -/
theorem unlockConfig_blocks_running_witness :
    unlockConfig (some "Running")
        { editorReadOnly := true, editorBorderColor := "", msgText := "", msgClass := "",
          btnLockHidden := false, btnSaveHidden := true, passwordModalShown := false,
          passwordValue := "", passwordError := "" }
      = ({ editorReadOnly := true, editorBorderColor := "", msgText := "", msgClass := "",
             btnLockHidden := false, btnSaveHidden := true, passwordModalShown := false,
             passwordValue := "", passwordError := "" }, true) ∧
    (unlockConfig (some "Stopped")
        { editorReadOnly := true, editorBorderColor := "", msgText := "", msgClass := "",
          btnLockHidden := false, btnSaveHidden := true, passwordModalShown := false,
          passwordValue := "", passwordError := "" }).1.passwordModalShown = true :=
  ⟨(unlockConfig_blocks_running (some "Running")
      { editorReadOnly := true, editorBorderColor := "", msgText := "", msgClass := "",
        btnLockHidden := false, btnSaveHidden := true, passwordModalShown := false,
        passwordValue := "", passwordError := "" } rfl (Or.inr (Or.inl rfl))).2.1 rfl,
   (unlockConfig_blocks_running (some "Stopped")
      { editorReadOnly := true, editorBorderColor := "", msgText := "", msgClass := "",
        btnLockHidden := false, btnSaveHidden := true, passwordModalShown := false,
        passwordValue := "", passwordError := "" } rfl
        (Or.inr (Or.inr (Or.inl rfl)))).1.mpr (by decide)⟩

/-! ## Theorems for the chart buffers (C6) -/

set_option maxRecDepth 4000

/-- C6 evaluation at the failing input: the guard `labels.length > 20` runs
the eviction only above 20, so 21 consecutive ticks into an empty
single-dataset chart leave 21 stored points — the buffer exceeds the
stated 20-point limit. -/
theorem updateChart_exceeds_twenty :
    (updateChartIter 20 emptyChart1).labels.length = 20 ∧
    (updateChartIter 21 emptyChart1).labels.length = 21 ∧
    20 < (updateChartIter 21 emptyChart1).labels.length := by
  decide

/-! ## Theorems for the system-stats handler (C8) -/

/-- The primary data list of a chart (dataset index 0, as pushed by
`chart.data.datasets[0].data.push`). -/
def dataset0 (c : ChartState) : List Int :=
  c.datasets.getD 0 []

/-- The secondary data list of a chart (dataset index 1, present on the rate
chart). -/
def dataset1 (c : ChartState) : List Int :=
  c.datasets.getD 1 []

/-- One `updateChart` tick appends the time label at the end of the label
list, evicting the oldest label exactly when more than 20 were stored. -/
theorem updateChart_labels (timeLabel : String) (c : ChartState) (v1 : Int)
    (v2 : Option Int) :
    (updateChart timeLabel c v1 v2).labels =
      (if c.labels.length > 20 then c.labels.tail else c.labels) ++ [timeLabel] := by
  by_cases h : c.labels.length > 20 <;>
    · simp only [updateChart, h, if_true, if_false, gt_iff_lt]
      cases v2 <;> split <;> simp [h]

/-- One `updateChart` tick appends `val1` at the end of dataset 0, evicting
its oldest point exactly when more than 20 labels were stored. -/
theorem updateChart_dataset0 (timeLabel : String) (c : ChartState) (v1 : Int)
    (v2 : Option Int) (h : c.datasets ≠ []) :
    dataset0 (updateChart timeLabel c v1 v2) =
      (if c.labels.length > 20 then (dataset0 c).tail else dataset0 c) ++ [v1] := by
  obtain ⟨labels, datasets⟩ := c
  cases datasets with
  | nil => exact absurd rfl h
  | cons d ds =>
    by_cases hlen : labels.length > 20 <;>
      · simp only [updateChart, hlen, if_true, if_false, gt_iff_lt]
        cases v2 <;> cases ds <;> simp [dataset0, modifyDataset, hlen]

/-- One `updateChart` tick with a non-null `val2` appends `val2` at the end
of dataset 1 when a second dataset exists, evicting its oldest point exactly
when more than 20 labels were stored. -/
theorem updateChart_dataset1 (timeLabel : String) (c : ChartState) (v1 v : Int)
    (h : 1 < c.datasets.length) :
    dataset1 (updateChart timeLabel c v1 (some v)) =
      (if c.labels.length > 20 then (dataset1 c).tail else dataset1 c) ++ [v] := by
  obtain ⟨labels, datasets⟩ := c
  match datasets, h with
  | d0 :: d1 :: ds, _ =>
    by_cases hlen : labels.length > 20 <;>
      simp [updateChart, dataset1, modifyDataset, hlen]

/-- C8: for a `system_stats` message carrying a `rabbitmq` block, a
non-`online` status sets the broker indicator to Offline with the block's
error string and leaves the four queue text fields and all three queue
charts untouched; an `online` status updates the four fields and appends
exactly one new point to each queue chart (both series of the rate chart). -/
theorem systemStats_mq_frame (timeLabel : String) (data : StatsData) (db : Dashboard)
    (mq : MqBlock) (hrb : data.rabbitmq = some mq)
    (hq : db.chartQueued.datasets ≠ []) (ht : db.chartTotal.datasets ≠ [])
    (hr : 1 < db.chartRate.datasets.length) :
    (mq.status ≠ "online" →
      (systemStatsHandler timeLabel data db).mqStatusText
          = "Offline (" ++ jsOrElse mq.error "Err" ++ ")" ∧
      (systemStatsHandler timeLabel data db).mqQueued = db.mqQueued ∧
      (systemStatsHandler timeLabel data db).mqTotal = db.mqTotal ∧
      (systemStatsHandler timeLabel data db).mqRateIn = db.mqRateIn ∧
      (systemStatsHandler timeLabel data db).mqRateOut = db.mqRateOut ∧
      (systemStatsHandler timeLabel data db).chartQueued = db.chartQueued ∧
      (systemStatsHandler timeLabel data db).chartTotal = db.chartTotal ∧
      (systemStatsHandler timeLabel data db).chartRate = db.chartRate) ∧
    (mq.status = "online" →
      (systemStatsHandler timeLabel data db).mqStatusText = "Online" ∧
      (systemStatsHandler timeLabel data db).mqQueued = mq.messages_ready ∧
      (systemStatsHandler timeLabel data db).mqTotal = mq.messages_total ∧
      (systemStatsHandler timeLabel data db).mqRateIn = mq.publish_rate ∧
      (systemStatsHandler timeLabel data db).mqRateOut = mq.deliver_rate ∧
      (systemStatsHandler timeLabel data db).chartQueued.labels
          = (if db.chartQueued.labels.length > 20 then db.chartQueued.labels.tail
             else db.chartQueued.labels) ++ [timeLabel] ∧
      dataset0 (systemStatsHandler timeLabel data db).chartQueued
          = (if db.chartQueued.labels.length > 20 then (dataset0 db.chartQueued).tail
             else dataset0 db.chartQueued) ++ [mq.messages_ready] ∧
      dataset0 (systemStatsHandler timeLabel data db).chartTotal
          = (if db.chartTotal.labels.length > 20 then (dataset0 db.chartTotal).tail
             else dataset0 db.chartTotal) ++ [mq.messages_total] ∧
      dataset0 (systemStatsHandler timeLabel data db).chartRate
          = (if db.chartRate.labels.length > 20 then (dataset0 db.chartRate).tail
             else dataset0 db.chartRate) ++ [mq.publish_rate] ∧
      dataset1 (systemStatsHandler timeLabel data db).chartRate
          = (if db.chartRate.labels.length > 20 then (dataset1 db.chartRate).tail
             else dataset1 db.chartRate) ++ [mq.deliver_rate]) := by
  constructor
  · intro hoff
    simp [systemStatsHandler, hrb, hoff]
  · intro hon
    have hr' : db.chartRate.datasets ≠ [] := by
      intro hnil
      rw [hnil] at hr
      simp at hr
    refine ⟨?_, ?_, ?_, ?_, ?_, ?_, ?_, ?_, ?_, ?_⟩ <;>
      simp [systemStatsHandler, hrb, hon, updateChart_labels,
        updateChart_dataset0 _ _ _ _ hq, updateChart_dataset0 _ _ _ _ ht,
        updateChart_dataset0 _ _ _ _ hr', updateChart_dataset1 _ _ _ _ hr]

/-- Witness for C8: a concrete offline snapshot leaves a concrete dashboard's
queue fields and charts alone, and a concrete online snapshot writes the
queue count. -/
theorem systemStats_mq_frame_witness :
    (systemStatsHandler "00:00:01"
        { cpu := 1, ram := 2, ram_used := 1, ram_total := 4, disk := 3, disk_used := 1,
          disk_total := 9, net_in := 0, net_out := 0,
          rabbitmq := some { status := "offline", messages_ready := 0, messages_total := 0,
                             publish_rate := 0, deliver_rate := 0, error := some "timeout" } }
        { cpuVal := 0, ramVal := 0, diskVal := 0, netIn := 0, netOut := 0,
          mqStatusClass := "", mqStatusText := "", mqQueued := 7, mqTotal := 9,
          mqRateIn := 1, mqRateOut := 2, chartQueued := emptyChart1,
          chartTotal := emptyChart1,
          chartRate := { labels := [], datasets := [[], []] } }).mqQueued = 7 ∧
    (systemStatsHandler "00:00:01"
        { cpu := 1, ram := 2, ram_used := 1, ram_total := 4, disk := 3, disk_used := 1,
          disk_total := 9, net_in := 0, net_out := 0,
          rabbitmq := some { status := "online", messages_ready := 5, messages_total := 6,
                             publish_rate := 1, deliver_rate := 2, error := none } }
        { cpuVal := 0, ramVal := 0, diskVal := 0, netIn := 0, netOut := 0,
          mqStatusClass := "", mqStatusText := "", mqQueued := 7, mqTotal := 9,
          mqRateIn := 1, mqRateOut := 2, chartQueued := emptyChart1,
          chartTotal := emptyChart1,
          chartRate := { labels := [], datasets := [[], []] } }).mqQueued = 5 :=
  ⟨((systemStats_mq_frame "00:00:01"
      { cpu := 1, ram := 2, ram_used := 1, ram_total := 4, disk := 3, disk_used := 1,
        disk_total := 9, net_in := 0, net_out := 0,
        rabbitmq := some { status := "offline", messages_ready := 0, messages_total := 0,
                           publish_rate := 0, deliver_rate := 0, error := some "timeout" } }
      { cpuVal := 0, ramVal := 0, diskVal := 0, netIn := 0, netOut := 0,
        mqStatusClass := "", mqStatusText := "", mqQueued := 7, mqTotal := 9,
        mqRateIn := 1, mqRateOut := 2, chartQueued := emptyChart1,
        chartTotal := emptyChart1,
        chartRate := { labels := [], datasets := [[], []] } }
      { status := "offline", messages_ready := 0, messages_total := 0,
        publish_rate := 0, deliver_rate := 0, error := some "timeout" }
      rfl (by decide) (by decide) (by decide)).1 (by decide)).2.1,
   ((systemStats_mq_frame "00:00:01"
      { cpu := 1, ram := 2, ram_used := 1, ram_total := 4, disk := 3, disk_used := 1,
        disk_total := 9, net_in := 0, net_out := 0,
        rabbitmq := some { status := "online", messages_ready := 5, messages_total := 6,
                           publish_rate := 1, deliver_rate := 2, error := none } }
      { cpuVal := 0, ramVal := 0, diskVal := 0, netIn := 0, netOut := 0,
        mqStatusClass := "", mqStatusText := "", mqQueued := 7, mqTotal := 9,
        mqRateIn := 1, mqRateOut := 2, chartQueued := emptyChart1,
        chartTotal := emptyChart1,
        chartRate := { labels := [], datasets := [[], []] } }
      { status := "online", messages_ready := 5, messages_total := 6,
        publish_rate := 1, deliver_rate := 2, error := none }
      rfl (by decide) (by decide) (by decide)).2 rfl).2.1⟩

/-! ## Theorems for the status badges (C9) -/

/-- A key that appears in no entry keeps its badge untouched by the
`status_update` handler. -/
theorem statusUpdate_not_mem (entries : List (String × String))
    (dom : String → Option BadgeEl) (k : String)
    (h : k ∉ entries.map Prod.fst) :
    statusUpdateHandler entries dom k = dom k := by
  induction entries generalizing dom with
  | nil => rfl
  | cons e es ih =>
    have hk : k ≠ e.1 := by
      intro hke
      exact h (by simp [hke])
    have hes : k ∉ es.map Prod.fst := by
      intro hmem
      exact h (by simp [hmem])
    have hstep : statusUpdateHandler (e :: es) dom =
        statusUpdateHandler es
          (setBadge dom e.1 (if e.2 = "running" then runningBadge else stoppedBadge)) := rfl
    rw [hstep, ih _ hes]
    simp [setBadge, hk]

/-- C9: for every entry of a `status_update` mapping whose badge element
exists, after the handler the badge reads `Running` exactly when the entry's
value is the string `running`, and `Stopped` for every other value. -/
theorem statusUpdate_running_iff (entries : List (String × String))
    (dom : String → Option BadgeEl)
    (hkeys : (entries.map Prod.fst).Nodup)
    (k v : String) (hmem : (k, v) ∈ entries) (b : BadgeEl) (hel : dom k = some b) :
    statusUpdateHandler entries dom k
        = some (if v = "running" then runningBadge else stoppedBadge) ∧
    ∀ b', statusUpdateHandler entries dom k = some b' →
      ((b'.innerText = "Running" ↔ v = "running") ∧
        (v ≠ "running" → b'.innerText = "Stopped")) := by
  have hmain : statusUpdateHandler entries dom k
      = some (if v = "running" then runningBadge else stoppedBadge) := by
    induction entries generalizing dom with
    | nil => exact absurd hmem (List.not_mem_nil _)
    | cons e es ih =>
      have hstep : statusUpdateHandler (e :: es) dom =
          statusUpdateHandler es
            (setBadge dom e.1 (if e.2 = "running" then runningBadge else stoppedBadge)) := rfl
      simp only [List.map_cons] at hkeys
      rcases List.mem_cons.mp hmem with heq | hes
      · cases heq
        have hnot : k ∉ es.map Prod.fst := (List.nodup_cons.mp hkeys).1
        rw [hstep, statusUpdate_not_mem es _ k hnot]
        simp [setBadge, hel]
      · have hkes : k ∈ es.map Prod.fst := List.mem_map_of_mem Prod.fst hes
        have hk : k ≠ e.1 := by
          intro hke
          exact (List.nodup_cons.mp hkeys).1 (hke ▸ hkes)
        rw [hstep]
        exact ih _ (List.nodup_cons.mp hkeys).2 hes (by simp [setBadge, hk, hel])
  refine ⟨hmain, fun b' hb' => ?_⟩
  rw [hmain] at hb'
  injection hb' with hb'
  subst hb'
  by_cases hv : v = "running" <;> simp [hv, runningBadge, stoppedBadge]

/-- Witness for C9: a two-entry mapping with one running and one other value
renders the existing badges accordingly. -/
theorem statusUpdate_running_iff_witness :
    statusUpdateHandler [("core", "running"), ("connector_a", "exited")]
        (fun k => if k = "core" ∨ k = "connector_a"
          then some { className := "", innerText := "Checking..." } else none) "core"
      = some (if "running" = "running" then runningBadge else stoppedBadge) :=
  (statusUpdate_running_iff [("core", "running"), ("connector_a", "exited")]
    (fun k => if k = "core" ∨ k = "connector_a"
      then some { className := "", innerText := "Checking..." } else none)
    (by decide) "core" "running" (by decide)
    { className := "", innerText := "Checking..." } (by simp)).1

/-! ## Theorems for the terminal transcript (C7) -/

/-- C7: delivering a sequence of `command_output` events appends exactly the
received lines, in delivery order, at the end of the terminal transcript —
nothing is dropped, reordered, or inserted elsewhere. -/
theorem commandOutput_appends_in_order (terminal : List String)
    (events : List CommandOutputEvent) :
    commandOutputRun terminal events = terminal ++ events.map (·.line) := by
  induction events generalizing terminal with
  | nil => simp [commandOutputRun]
  | cons e es ih =>
    have h : commandOutputRun terminal (e :: es) =
        commandOutputRun (terminal ++ [e.line]) es := rfl
    rw [h, ih]
    simp

/-! ## Theorems for connector-card reconciliation (C1, C5) -/

/-- Searching a card list by name steps through the head card first. -/
theorem find?_name_cons (m : String) (c : Card) (cs : List Card) :
    (c :: cs).find? (fun d => d.name == m)
      = if c.name = m then some c else cs.find? (fun d => d.name == m) := by
  by_cases h : c.name = m
  · rw [if_pos h]
    exact List.find?_cons_of_pos _ (by simp [h])
  · rw [if_neg h]
    exact List.find?_cons_of_neg _ (by simp [h])

/-- Replacing a card in place never changes the sequence of card names. -/
theorem updateFirst_map_name (n : String) (v : Bool) (cards : List Card) :
    (updateFirst n v cards).map (·.name) = cards.map (·.name) := by
  induction cards with
  | nil => rfl
  | cons c cs ih =>
    by_cases h : c.name = n
    · by_cases hv : c.valid = v <;> simp [updateFirst, h, hv]
    · simp [updateFirst, h, ih]

/-- Searching for a name other than the replaced one is unaffected by
`updateFirst`. -/
theorem find?_updateFirst_ne (n m : String) (v : Bool) (cards : List Card)
    (hnm : m ≠ n) :
    (updateFirst n v cards).find? (fun c => c.name == m)
      = cards.find? (fun c => c.name == m) := by
  induction cards with
  | nil => rfl
  | cons c cs ih =>
    by_cases h : c.name = n
    · by_cases hv : c.valid = v
      · simp [updateFirst, h, hv]
      · have hrepl : updateFirst n v (c :: cs) = { name := n, valid := v } :: cs := by
          simp [updateFirst, h, hv]
        rw [hrepl, find?_name_cons, find?_name_cons,
          if_neg (show ¬({ name := n, valid := v } : Card).name = m from Ne.symm hnm),
          if_neg (show ¬c.name = m from h ▸ Ne.symm hnm)]
    · have hupd : updateFirst n v (c :: cs) = c :: updateFirst n v cs := by
        simp [updateFirst, h]
      rw [hupd, find?_name_cons, find?_name_cons]
      by_cases hm : c.name = m
      · rw [if_pos hm, if_pos hm]
      · rw [if_neg hm, if_neg hm, ih]

/-- After `updateFirst n v`, the first card named `n` holds validity `v`,
provided some card named `n` exists. -/
theorem find?_updateFirst_self (n : String) (v : Bool) (cards : List Card)
    (h : n ∈ cards.map (·.name)) :
    (updateFirst n v cards).find? (fun c => c.name == n)
      = some { name := n, valid := v } := by
  induction cards with
  | nil => simp at h
  | cons c cs ih =>
    by_cases hn : c.name = n
    · by_cases hv : c.valid = v
      · have hkeep : updateFirst n v (c :: cs) = c :: cs := by
          simp [updateFirst, hn, hv]
        have hc : c = { name := n, valid := v } := by
          cases c
          simp_all
        rw [hkeep, find?_name_cons, if_pos hn, hc]
      · have hrepl : updateFirst n v (c :: cs) = { name := n, valid := v } :: cs := by
          simp [updateFirst, hn, hv]
        rw [hrepl, find?_name_cons, if_pos rfl]
    · have hcs : n ∈ cs.map (·.name) := by
        simp only [List.map_cons, List.mem_cons] at h
        rcases h with heq | hmem
        · exact absurd heq.symm hn
        · exact hmem
      have hupd : updateFirst n v (c :: cs) = c :: updateFirst n v cs := by
        simp [updateFirst, hn]
      rw [hupd, find?_name_cons, if_neg hn, ih hcs]

/-- When the first card named `n` already has validity `v`, `updateFirst`
changes nothing (the `wasValid !== item.has_config` guard fails). -/
theorem updateFirst_eq_self_of_find? (n : String) (v : Bool) (cards : List Card)
    (h : cards.find? (fun c => c.name == n) = some { name := n, valid := v }) :
    updateFirst n v cards = cards := by
  induction cards with
  | nil => rfl
  | cons c cs ih =>
    by_cases hn : c.name = n
    · rw [find?_name_cons, if_pos hn] at h
      injection h with h
      rw [h]
      simp [updateFirst]
    · rw [find?_name_cons, if_neg hn] at h
      simp [updateFirst, hn, ih h]

/-- Processing one list item cannot disturb the first card found under any
other name. -/
theorem find?_processItem_ne (orig : List String) (cards : List Card)
    (item : ConnItem) (m : String) (x : Card) (hne : item.name ≠ m)
    (h : cards.find? (fun c => c.name == m) = some x) :
    (processItem orig cards item).find? (fun c => c.name == m) = some x := by
  by_cases hmem : item.name ∈ orig
  · rw [processItem, if_pos hmem, find?_updateFirst_ne _ _ _ _ (Ne.symm hne), h]
  · rw [processItem, if_neg hmem, List.find?_append, h]
    rfl

/-- Folding the handler's per-item step over items whose names all differ
from `m` preserves the first card found under `m`. -/
theorem find?_fold_ne (orig : List String) (l : List ConnItem) (m : String)
    (x : Card) (hl : ∀ i ∈ l, i.name ≠ m) :
    ∀ cards : List Card, cards.find? (fun c => c.name == m) = some x →
      (l.foldl (processItem orig) cards).find? (fun c => c.name == m) = some x := by
  induction l with
  | nil => exact fun cards h => h
  | cons j js ih =>
    intro cards h
    exact ih (fun i hi => hl i (List.mem_cons_of_mem j hi)) _
      (find?_processItem_ne orig cards j m x (hl j (List.mem_cons_self j js)) h)

/-- The names after step 2 of the handler: the original names in place,
followed by the names of the list items that were appended (exactly those
absent from the captured name set). -/
theorem fold_map_name (orig : List String) (l : List ConnItem) :
    ∀ cards : List Card,
      (l.foldl (processItem orig) cards).map (·.name)
        = cards.map (·.name)
          ++ (l.filter (fun i => !orig.contains i.name)).map (·.name) := by
  induction l with
  | nil => intro cards; simp
  | cons j js ih =>
    intro cards
    have hstep : (j :: js).foldl (processItem orig) cards
        = js.foldl (processItem orig) (processItem orig cards j) := rfl
    rw [hstep, ih]
    by_cases h : j.name ∈ orig
    · rw [processItem, if_pos h, updateFirst_map_name, List.filter_cons]
      simp [h]
    · rw [processItem, if_neg h, List.filter_cons]
      simp [h, cardOf, List.append_assoc]

/-- After step 2, for each item of a duplicate-free list the first card
carrying that item's name is exactly the card the list prescribes. -/
theorem fold_find?_eq (orig : List String) (l : List ConnItem) :
    (l.map (·.name)).Nodup →
    ∀ cards : List Card,
      (∀ s ∈ cards.map (·.name), s ∈ orig ∨ s ∉ l.map (·.name)) →
      (∀ s ∈ orig, s ∈ cards.map (·.name)) →
      ∀ i ∈ l,
        (l.foldl (processItem orig) cards).find? (fun c => c.name == i.name)
          = some (cardOf i) := by
  induction l with
  | nil => intro _ cards _ _ i hi; exact absurd hi (List.not_mem_nil _)
  | cons j js ih =>
    intro hnd cards hcards hsub i hi
    simp only [List.map_cons, List.nodup_cons] at hnd
    have hstep : (j :: js).foldl (processItem orig) cards
        = js.foldl (processItem orig) (processItem orig cards j) := rfl
    rw [hstep]
    rcases List.mem_cons.mp hi with rfl | his
    · have hjs : ∀ p ∈ js, p.name ≠ i.name := by
        intro p hp heq
        exact hnd.1 (heq ▸ List.mem_map_of_mem (·.name) hp)
      apply find?_fold_ne orig js i.name (cardOf i) hjs
      by_cases hmem : i.name ∈ orig
      · rw [processItem, if_pos hmem]
        exact find?_updateFirst_self i.name i.has_config cards (hsub _ hmem)
      · have hnone : cards.find? (fun c => c.name == i.name) = none := by
          rw [List.find?_eq_none]
          intro c hc hbeq
          have hcn : c.name = i.name := by simpa using hbeq
          rcases hcards c.name (List.mem_map_of_mem (·.name) hc) with ho | hno
          · exact hmem (hcn ▸ ho)
          · exact hno (by simp [hcn])
        have hsingle : List.find? (fun c => c.name == i.name) [cardOf i]
            = some (cardOf i) := List.find?_cons_of_pos _ (by simp [cardOf])
        rw [processItem, if_neg hmem, List.find?_append, hnone, hsingle]
        rfl
    · refine ih hnd.2 (processItem orig cards j) ?_ ?_ i his
      · intro s hs
        by_cases hmem : j.name ∈ orig
        · rw [processItem, if_pos hmem, updateFirst_map_name] at hs
          rcases hcards s hs with ho | hno
          · exact Or.inl ho
          · exact Or.inr fun hh => hno (List.mem_cons_of_mem _ hh)
        · rw [processItem, if_neg hmem] at hs
          simp only [List.map_append, List.mem_append] at hs
          rcases hs with hs | hs
          · rcases hcards s hs with ho | hno
            · exact Or.inl ho
            · exact Or.inr fun hh => hno (List.mem_cons_of_mem _ hh)
          · have hsj : s = j.name := by simpa [cardOf] using hs
            exact Or.inr (hsj ▸ hnd.1)
      · intro s hso
        by_cases hmem : j.name ∈ orig
        · rw [processItem, if_pos hmem, updateFirst_map_name]
          exact hsub s hso
        · rw [processItem, if_neg hmem]
          simp only [List.map_append, List.mem_append]
          exact Or.inl (hsub s hso)

/-- Filtering with a predicate that holds on every element matching the
search predicate does not change the search result. -/
theorem find?_filter_congr {α : Type} (p q : α → Bool) (l : List α)
    (h : ∀ a ∈ l, q a = true → p a = true) :
    (l.filter p).find? q = l.find? q := by
  induction l with
  | nil => rfl
  | cons a as ih =>
    have ih' := ih fun b hb => h b (List.mem_cons_of_mem a hb)
    by_cases hq : q a = true
    · have hp := h a (List.mem_cons_self a as) hq
      rw [List.filter_cons, if_pos hp, List.find?_cons_of_pos _ hq,
        List.find?_cons_of_pos _ hq]
    · by_cases hp : p a = true
      · rw [List.filter_cons, if_pos hp, List.find?_cons_of_neg _ hq,
          List.find?_cons_of_neg _ hq, ih']
      · rw [List.filter_cons, if_neg hp, List.find?_cons_of_neg _ hq, ih']

/-- Mapping after a filter keeps names duplicate-free when the unfiltered
names were. -/
theorem nodup_map_of_filter {α : Type} (f : α → String) (p : α → Bool)
    (l : List α) (h : (l.map f).Nodup) : ((l.filter p).map f).Nodup := by
  induction l with
  | nil => simp
  | cons a as ih =>
    simp only [List.map_cons, List.nodup_cons] at h
    rw [List.filter_cons]
    split
    · simp only [List.map_cons, List.nodup_cons]
      refine ⟨fun hmem => h.1 ?_, ih h.2⟩
      rcases List.mem_map.mp hmem with ⟨b, hb, hfb⟩
      exact hfb ▸ List.mem_map_of_mem f (List.mem_of_mem_filter hb)
    · exact ih h.2

/-- For each item of a duplicate-free list, the handler leaves as first card
under that item's name exactly the prescribed card. -/
theorem handler_find? (cards : List Card) (list : List ConnItem)
    (hnd : (list.map (·.name)).Nodup) (i : ConnItem) (hi : i ∈ list) :
    (knownConnectorsHandler cards list).find? (fun c => c.name == i.name)
      = some (cardOf i) := by
  rw [knownConnectorsHandler]
  rw [find?_filter_congr]
  · exact fold_find?_eq (cards.map (·.name)) list hnd cards
      (fun s hs => Or.inl hs) (fun s hs => hs) i hi
  · intro c _ hq
    have hcn : c.name = i.name := by simpa using hq
    have h2 : (list.map (·.name)).contains c.name = true :=
      List.elem_iff.mpr (hcn ▸ List.mem_map_of_mem (·.name) hi)
    rw [h2, Bool.or_true]

/-- Every card the handler leaves rendered carries a name from the received
list. -/
theorem handler_names_sub (cards : List Card) (list : List ConnItem)
    (c : Card) (hc : c ∈ knownConnectorsHandler cards list) :
    c.name ∈ list.map (·.name) := by
  rw [knownConnectorsHandler] at hc
  have hmem := List.of_mem_filter hc
  have hin := List.mem_of_mem_filter hc
  by_cases horig : c.name ∈ cards.map (·.name)
  · have hco : (cards.map (·.name)).contains c.name = true := List.elem_iff.mpr horig
    rw [hco] at hmem
    simp only [Bool.not_true, Bool.false_or] at hmem
    exact List.elem_iff.mp hmem
  · have hnames : c.name
        ∈ (list.foldl (processItem (cards.map (·.name))) cards).map (·.name) :=
      List.mem_map_of_mem (·.name) hin
    rw [fold_map_name] at hnames
    rcases List.mem_append.mp hnames with hl | hr
    · exact absurd hl horig
    · rcases List.mem_map.mp hr with ⟨i, hi, hin'⟩
      exact hin' ▸ List.mem_map_of_mem (·.name) (List.mem_of_mem_filter hi)

/-- When both the rendered cards and the received list are duplicate-free by
name, so is the handler's output. -/
theorem handler_names_nodup (cards : List Card) (list : List ConnItem)
    (hcards : (cards.map (·.name)).Nodup) (hlist : (list.map (·.name)).Nodup) :
    ((knownConnectorsHandler cards list).map (·.name)).Nodup := by
  rw [knownConnectorsHandler]
  apply nodup_map_of_filter
  rw [fold_map_name]
  apply List.Nodup.append hcards
  · exact nodup_map_of_filter (·.name) _ list hlist
  · intro s hs hs'
    rcases List.mem_map.mp hs' with ⟨i, hi, hin⟩
    have hq := List.of_mem_filter hi
    rw [hin] at hq
    have hcont : (cards.map (·.name)).contains s = true := List.elem_iff.mpr hs
    rw [hcont] at hq
    simp at hq

/-- With duplicate-free names, membership plus a successful name search pins
the card down. -/
theorem eq_of_mem_find?_nodup (l : List Card) (hnd : (l.map (·.name)).Nodup)
    (c x : Card) (hc : c ∈ l) (hx : l.find? (fun d => d.name == c.name) = some x) :
    x = c := by
  induction l with
  | nil => exact absurd hc (List.not_mem_nil _)
  | cons a as ih =>
    simp only [List.map_cons, List.nodup_cons] at hnd
    rcases List.mem_cons.mp hc with rfl | hcs
    · rw [find?_name_cons, if_pos rfl] at hx
      injection hx with hx
      exact hx.symm
    · have hne : a.name ≠ c.name := by
        intro h
        exact hnd.1 (h ▸ List.mem_map_of_mem (·.name) hcs)
      rw [find?_name_cons, if_neg hne] at hx
      exact ih hnd.2 hcs hx

/-- C1: for a `known_connectors` list and a rendered container both free of
duplicate names, the cards rendered after the handler are exactly the cards
the list prescribes — a listed name missing a card gains one, a card whose
name left the list is removed, and a card whose stored validity disagrees
with the list entry is replaced to reflect the new validity. -/
theorem knownConnectors_reconciles (cards : List Card) (list : List ConnItem)
    (hcards : (cards.map (·.name)).Nodup) (hlist : (list.map (·.name)).Nodup) :
    ∀ n v, ({ name := n, valid := v } : Card) ∈ knownConnectorsHandler cards list
      ↔ ∃ i ∈ list, i.name = n ∧ i.has_config = v := by
  intro n v
  constructor
  · intro hmem
    have hname : n ∈ list.map (·.name) := handler_names_sub cards list _ hmem
    rcases List.mem_map.mp hname with ⟨i, hi, hin⟩
    have hfind := handler_find? cards list hlist i hi
    rw [show (fun c : Card => c.name == i.name)
        = (fun c : Card => c.name == ({ name := n, valid := v } : Card).name) from by
      simp [hin]] at hfind
    have heq := eq_of_mem_find?_nodup _ (handler_names_nodup cards list hcards hlist)
      _ _ hmem hfind
    exact ⟨i, hi, by simpa [cardOf] using congrArg Card.name heq,
      by simpa [cardOf] using congrArg Card.valid heq⟩
  · rintro ⟨i, hi, hn, hv⟩
    have hfind := handler_find? cards list hlist i hi
    have := List.mem_of_find?_eq_some hfind
    simpa [cardOf, hn, hv] using this

/-- Witness for C1: a concrete reconciliation — card `a` flips validity,
card `b` is removed, card `c` is added. -/
theorem knownConnectors_reconciles_witness :
    (({ name := "a", valid := false } : Card)
        ∈ knownConnectorsHandler
            [{ name := "a", valid := true }, { name := "b", valid := true }]
            [{ name := "a", has_config := false }, { name := "c", has_config := true }]
      ↔ ∃ i ∈ [({ name := "a", has_config := false } : ConnItem),
               { name := "c", has_config := true }],
          i.name = "a" ∧ i.has_config = false) :=
  knownConnectors_reconciles
    [{ name := "a", valid := true }, { name := "b", valid := true }]
    [{ name := "a", has_config := false }, { name := "c", has_config := true }]
    (by decide) (by decide) "a" false

/-- When every item of the list finds its prescribed card already first
under its name, step 2 changes nothing at all. -/
theorem fold_id_of_find? (orig : List String) (l : List ConnItem)
    (cards : List Card) (horig : ∀ i ∈ l, i.name ∈ orig)
    (h : ∀ i ∈ l, cards.find? (fun c => c.name == i.name) = some (cardOf i)) :
    l.foldl (processItem orig) cards = cards := by
  induction l with
  | nil => rfl
  | cons j js ih =>
    have hstep : (j :: js).foldl (processItem orig) cards
        = js.foldl (processItem orig) (processItem orig cards j) := rfl
    have hproc : processItem orig cards j = cards := by
      rw [processItem, if_pos (horig j (List.mem_cons_self j js))]
      exact updateFirst_eq_self_of_find? j.name j.has_config cards
        (h j (List.mem_cons_self j js))
    rw [hstep, hproc]
    exact ih (fun i hi => horig i (List.mem_cons_of_mem j hi))
      (fun i hi => h i (List.mem_cons_of_mem j hi))

/-- C5: processing the same duplicate-free `known_connectors` list twice in
succession leaves the card list of the first run untouched — the second run
adds, removes and replaces nothing. -/
theorem knownConnectors_idempotent (cards : List Card) (list : List ConnItem)
    (hlist : (list.map (·.name)).Nodup) :
    knownConnectorsHandler (knownConnectorsHandler cards list) list
      = knownConnectorsHandler cards list := by
  have hfind : ∀ i ∈ list,
      (knownConnectorsHandler cards list).find? (fun c => c.name == i.name)
        = some (cardOf i) :=
    fun i hi => handler_find? cards list hlist i hi
  have horig : ∀ i ∈ list,
      i.name ∈ (knownConnectorsHandler cards list).map (·.name) := by
    intro i hi
    have := List.mem_of_find?_eq_some (hfind i hi)
    simpa [cardOf] using List.mem_map_of_mem (·.name) this
  conv_lhs => rw [knownConnectorsHandler]
  rw [fold_id_of_find? _ _ _ horig hfind]
  rw [List.filter_eq_self.mpr]
  intro c hc
  have h2 : (list.map (·.name)).contains c.name = true :=
    List.elem_iff.mpr (handler_names_sub cards list c hc)
  rw [h2, Bool.or_true]

/-- Witness for C5: re-processing a concrete list leaves the concrete
first-run card list unchanged. -/
theorem knownConnectors_idempotent_witness :
    knownConnectorsHandler
        (knownConnectorsHandler [{ name := "b", valid := true }]
          [{ name := "a", has_config := false }, { name := "c", has_config := true }])
        [{ name := "a", has_config := false }, { name := "c", has_config := true }]
      = knownConnectorsHandler [{ name := "b", valid := true }]
          [{ name := "a", has_config := false }, { name := "c", has_config := true }] :=
  knownConnectors_idempotent [{ name := "b", valid := true }]
    [{ name := "a", has_config := false }, { name := "c", has_config := true }]
    (by decide)

/-! ## Theorems for calculateAverage (C10) -/

/-- C10: `calculateAverage` is total — `null`/`undefined` and the empty
array return the number 0 without dividing, while a non-empty array returns
the arithmetic mean of its entries formatted to one decimal place as a
string. -/
theorem calculateAverage_total_mean :
    calculateAverage none = AvgResult.num 0 ∧
    calculateAverage (some []) = AvgResult.num 0 ∧
    ∀ l : List ℚ, l ≠ [] →
      calculateAverage (some l) = AvgResult.str (toFixed1 (l.sum / l.length)) := by
  refine ⟨rfl, rfl, fun l hl => ?_⟩
  have hlen : l.length ≠ 0 := by simpa [List.length_eq_zero] using hl
  simp only [calculateAverage, hlen, if_false]
  rw [← List.sum_eq_foldl]

/-- Witness for C10 at a concrete non-empty array: the mean of 3 and 4 is
rendered as the string `3.5`. -/
theorem calculateAverage_total_mean_witness :
    calculateAverage (some [(3 : ℚ), 4]) =
      AvgResult.str (toFixed1 ([(3 : ℚ), 4].sum / ([(3 : ℚ), 4].length))) :=
  calculateAverage_total_mean.2.2 [(3 : ℚ), 4] (by decide)

end DockerManager
